import Mathlib

/-!
Verification of the Naemon Event Radio Dispatcher (src/naemon/nerd.c).

The development is a shallow embedding of nerd.c: channels hold their
subscriber lists, and every call a channel operation issues to an external
collaborator (the event-broker registration API, the iobroker reactor) is
recorded as an explicit event.  The broker itself is not part of the
fragment, so its state is modelled from the spec (section 6): a successful
registerCallback adds a (channel, event-kind) registration, deregisterCallback
removes it, and a handler is identified with its channel's index in the
registry.
-/

/-- Connection handles (`int sd` in the C code). -/
abbrev Sd := Int

/-- Embeds `struct nerd_subscription` (nerd.h): the socket descriptor and the
optional verbatim format string.  The `chan` back-pointer is represented by
the position of the subscription inside its channel's list. -/
structure NerdSubscription where
  sd : Sd
  format : Option String
deriving DecidableEq, Repr

/-- Embeds `struct nerd_channel`: name, description, the declared callback
ids (`callbacks[0..num_callbacks)`) and the subscriber list.  The channel id
is its index in the registry list; `required_options` is never read by the
code and is omitted. -/
structure NerdChannel where
  name : String
  description : String
  callbacks : List Nat
  subscriptions : List NerdSubscription
deriving DecidableEq, Repr

/-- Calls issued to the external collaborators during an operation:
`neb_register_callback` (with the result it returned),
`neb_deregister_callback`, and `iobroker_close`. -/
inductive NerdEvent where
  | registerCb (ci : Nat) (cb : Nat) (result : Int)
  | deregisterCb (ci : Nat) (cb : Nat)
  | closeSd (sd : Sd)
deriving DecidableEq, Repr

/-- Modelled from the spec: the host event-broker collaborator (section 6),
whose code is not part of this fragment.  Its state is the set of live
(channel, event-kind) registrations: a `registerCallback` call that reports
success adds one, `deregisterCallback` removes it (deregistering an
unregistered callback is a no-op), and a channel's handler function is
identified with the channel's registry index. -/
def brokerStep (b : List (Nat × Nat)) : NerdEvent → List (Nat × Nat)
  | NerdEvent.registerCb ci cb r => if r = 0 then (ci, cb) :: b else b
  | NerdEvent.deregisterCb ci cb => b.filter (fun p => decide (p ≠ (ci, cb)))
  | NerdEvent.closeSd _ => b

/-- The registry (`static struct nerd_channel **channels`) plus the broker
collaborator's registration state. -/
structure NerdState where
  channels : List NerdChannel
  broker : List (Nat × Nat)
deriving DecidableEq, Repr

/-- Embeds `nerd_register_channel_callbacks`: walks the declared callbacks in
order; `reg cb` is the result `neb_register_callback` returned for callback
`cb`.  On the first nonzero result the C code logs the failure and returns -1
without touching the remaining callbacks.  Returns the list of callbacks for
which a registration call was issued, together with the return value. -/
def nerd_register_channel_callbacks (reg : Nat → Int) : List Nat → List Nat × Int
  | [] => ([], 0)
  | cb :: rest =>
      if reg cb = 0 then
        (cb :: (nerd_register_channel_callbacks reg rest).1,
          (nerd_register_channel_callbacks reg rest).2)
      else ([cb], -1)

/-- The `neb_register_callback` calls issued by `nerd_register_channel_callbacks`
for channel `ci`, with the result each call returned. -/
def regEvents (reg : Nat → Int) (ci : Nat) (cbs : List Nat) : List NerdEvent :=
  (nerd_register_channel_callbacks reg cbs).1.map
    (fun cb => NerdEvent.registerCb ci cb (reg cb))

/-- Embeds `nerd_deregister_channel_callbacks`: one unconditional
`neb_deregister_callback` call per declared callback. -/
def deregEvents (ci : Nat) (cbs : List Nat) : List NerdEvent :=
  cbs.map (NerdEvent.deregisterCb ci)

/-- Result of a state-mutating operation: the new state, the collaborator
calls issued, and the C return value. -/
structure OpResult where
  st : NerdState
  evs : List NerdEvent
  ret : Int
deriving DecidableEq, Repr

/-- Embeds `subscribe(sd, chan, fmt)`: if the channel's subscriber list is
empty, register the channel's callbacks; then prepend the new subscription
(`prepend_object_to_objectlist`); return 0.  The register result is ignored
by the C code.  The channel is addressed by its registry index. -/
def subscribe (reg : Nat → Int) (sd : Sd) (fmt : Option String) (ci : Nat)
    (st : NerdState) : OpResult :=
  match st.channels[ci]? with
  | none => ⟨st, [], 0⟩
  | some chan =>
    let evs := if chan.subscriptions = [] then regEvents reg ci chan.callbacks else []
    ⟨⟨st.channels.set ci { chan with subscriptions := ⟨sd, fmt⟩ :: chan.subscriptions },
      evs.foldl brokerStep st.broker⟩, evs, 0⟩

/-- Embeds the removal loop shared by `unsubscribe` and
`cancel_channel_subscription`: the prev/next splice drops every list node
whose subscription matches `sd` and keeps the rest in order. -/
def remove_matching (sd : Sd) : List NerdSubscription → List NerdSubscription
  | [] => []
  | s :: rest =>
      if s.sd = sd then remove_matching sd rest else s :: remove_matching sd rest

/-- Number of subscriptions removed by the splice (the `cancelled` counter of
`cancel_channel_subscription`, used only for logging). -/
def count_matching (sd : Sd) (l : List NerdSubscription) : Nat :=
  (l.filter (fun s => decide (s.sd = sd))).length

/-- The state change and collaborator calls shared by `unsubscribe` and
`cancel_channel_subscription`: run the removal splice, then - if the list is
empty afterwards (`chan->subscriptions == NULL`), whether or not anything was
removed - issue the deregistration calls. -/
def chanRemoveStep (sd : Sd) (ci : Nat) (st : NerdState) : NerdState × List NerdEvent :=
  match st.channels[ci]? with
  | none => (st, [])
  | some chan =>
    let subs := remove_matching sd chan.subscriptions
    let evs := if subs = [] then deregEvents ci chan.callbacks else []
    (⟨st.channels.set ci { chan with subscriptions := subs },
      evs.foldl brokerStep st.broker⟩, evs)

/-- Embeds `unsubscribe(sd, chan)`: the removal splice plus the
deregister-when-empty check; always returns 0. -/
def unsubscribe (sd : Sd) (ci : Nat) (st : NerdState) : OpResult :=
  ⟨(chanRemoveStep sd ci st).1, (chanRemoveStep sd ci st).2, 0⟩

/-- Embeds `cancel_channel_subscription(chan, sd)`: returns -1 when the
channel pointer is NULL (here: the index is out of range), otherwise performs
the same splice and deregister-when-empty check as `unsubscribe` (the
`cancelled` count is only logged) and returns 0. -/
def cancel_channel_subscription (sd : Sd) (ci : Nat) (st : NerdState) : OpResult :=
  ⟨(chanRemoveStep sd ci st).1, (chanRemoveStep sd ci st).2,
    if st.channels[ci]? = none then -1 else 0⟩

/-- The loop of `nerd_cancel_subscriber`: `cancel_channel_subscription` on
each channel index in turn. -/
def cancelAllLoop (sd : Sd) (st : NerdState) : List Nat → NerdState × List NerdEvent
  | [] => (st, [])
  | i :: rest =>
      ((cancelAllLoop sd (cancel_channel_subscription sd i st).st rest).1,
        (cancel_channel_subscription sd i st).evs ++
          (cancelAllLoop sd (cancel_channel_subscription sd i st).st rest).2)

/-- Embeds `nerd_cancel_subscriber(sd)`: cancels the subscriber on every
channel of the registry, then calls `iobroker_close(nagios_iobs, sd)`;
returns 0. -/
def nerd_cancel_subscriber (sd : Sd) (st : NerdState) : OpResult :=
  ⟨(cancelAllLoop sd st (List.range st.channels.length)).1,
    (cancelAllLoop sd st (List.range st.channels.length)).2 ++ [NerdEvent.closeSd sd], 0⟩

/-- Outcome of one non-blocking `send()` on a subscriber socket, as the C
code classifies it: success (result >= 0), failure with errno == EAGAIN, or
failure with any other errno. -/
inductive SendResult where
  | ok
  | wouldBlock
  | err
deriving DecidableEq, Repr

/-- Result of `nerd_broadcast`: the state (a fatal send failure cancels the
subscriber), the collaborator calls issued, the return value, the sockets a
send was attempted on (in traversal order), and the sockets whose send
succeeded. -/
structure BroadcastResult where
  st : NerdState
  evs : List NerdEvent
  ret : Int
  attempts : List Sd
  delivered : List Sd
deriving DecidableEq, Repr

/-- Embeds `nerd_get_channel`: bounds-checked registry lookup by id. -/
def nerd_get_channel (st : NerdState) (chan_id : Nat) : Option NerdChannel :=
  st.channels[chan_id]?

/-- The traversal loop of `nerd_broadcast`: attempt a send to each
subscription in list order; on EAGAIN return 0 at once; on any other send
failure run `nerd_cancel_subscriber` for that socket and return 500. -/
def nerd_broadcast_loop (send : Sd → SendResult) (st : NerdState) :
    List NerdSubscription → BroadcastResult
  | [] => ⟨st, [], 0, [], []⟩
  | s :: rest =>
    match send s.sd with
    | SendResult.ok =>
        ⟨(nerd_broadcast_loop send st rest).st, (nerd_broadcast_loop send st rest).evs,
          (nerd_broadcast_loop send st rest).ret,
          s.sd :: (nerd_broadcast_loop send st rest).attempts,
          s.sd :: (nerd_broadcast_loop send st rest).delivered⟩
    | SendResult.wouldBlock => ⟨st, [], 0, [s.sd], []⟩
    | SendResult.err =>
        ⟨(nerd_cancel_subscriber s.sd st).st, (nerd_cancel_subscriber s.sd st).evs, 500,
          [s.sd], []⟩

/-- Embeds `nerd_broadcast(chan_id, buf, len)`: resolve the channel (-1 when
the id is out of range), then run the delivery loop over its subscriber
list.  `send` gives the outcome of the one non-blocking send per socket for
this payload. -/
def nerd_broadcast (send : Sd → SendResult) (chan_id : Nat) (st : NerdState) :
    BroadcastResult :=
  match nerd_get_channel st chan_id with
  | none => ⟨st, [], -1, [], []⟩
  | some chan => nerd_broadcast_loop send st chan.subscriptions

/-- Splitting a string at the first occurrence of a character, as the
`strchr` + truncate-and-advance idiom of `nerd_qh_handler` does: `none` when
the character does not occur. -/
def splitFirstList (c : Char) : List Char → Option (List Char × List Char)
  | [] => none
  | x :: xs =>
      if x = c then some ([], xs)
      else
        match splitFirstList c xs with
        | none => none
        | some (pre, post) => some (x :: pre, post)

/-- String version of `splitFirstList`. -/
def splitFirst (c : Char) (s : String) : Option (String × String) :=
  match splitFirstList c s.toList with
  | none => none
  | some (pre, post) => some (String.mk pre, String.mk post)

/-- The channel-name part of the text after the verb: everything before the
first colon (the colon starts the optional format string). -/
def chanNameOf (rest : String) : String :=
  match splitFirst ':' rest with
  | none => rest
  | some (n, _) => n

/-- The optional format string: the text after the first colon, when present. -/
def fmtOf (rest : String) : Option String :=
  match splitFirst ':' rest with
  | none => none
  | some (_, f) => some f

/-- Embeds `find_channel(name)`: index of the first registry channel whose
name compares equal. -/
def find_channel (name : String) (st : NerdState) : Option Nat :=
  st.channels.findIdx? (fun chan => decide (chan.name = name))

/-- One line of the `list` response, `printf` format `"%-15s %s\n"`: the name
left-justified in a minimum-width-15 field, a space, the description, a
newline. -/
def lineOfNameDesc (p : String × String) : String :=
  p.1 ++ String.mk (List.replicate (15 - p.1.length) ' ') ++ " " ++ p.2 ++ "\n"

/-- The `list` line for one channel. -/
def fmtChanLine (chan : NerdChannel) : String :=
  lineOfNameDesc (chan.name, chan.description)

/-- The NUL byte the `list` branch appends with `nsock_printf(sd, "%c", 0)`. -/
def nulChar : Char := Char.ofNat 0

/-- Full output of the `list` branch: one line per registry channel in
registry order, then a single NUL byte. -/
def listOutput (st : NerdState) : String :=
  String.join (st.channels.map fmtChanLine) ++ String.mk [nulChar]

/-- The usage block written (NUL-terminated, via `nsock_printf_nul`) for an
empty request or `help`. -/
def usageText : String :=
  "Manage subscriptions to NERD channels.\n" ++
  "Valid commands:\n" ++
  "  list                      list available channels\n" ++
  "  subscribe <channel>       subscribe to a channel\n" ++
  "  unsubscribe <channel>     unsubscribe to a channel\n" ++ String.mk [nulChar]

/-- Result of `nerd_qh_handler`: the registry state after the request, the
returned status code, and the bytes written back on the control socket. -/
structure QhResult where
  st : NerdState
  ret : Int
  out : String
deriving DecidableEq, Repr

/-- Embeds `nerd_qh_handler(sd, request, len)`: empty/`help` write the usage
block, `list` writes the channel table, anything else is split at the first
space into verb and rest; the verb must be exactly `subscribe` or
`unsubscribe`, the rest is stripped at the first colon into channel name and
optional format, the name is resolved with `find_channel`, and the matching
channel operation runs with the caller's socket; 400 on any parse or lookup
failure.  `reg` supplies the `neb_register_callback` results should a
subscribe activate the channel; `len` is unused by the C code. -/
def nerd_qh_handler (reg : Nat → Int) (sd : Sd) (request : String) (len : Nat)
    (st : NerdState) : QhResult :=
  if request = "" ∨ request = "help" then ⟨st, 0, usageText⟩
  else if request = "list" then ⟨st, 0, listOutput st⟩
  else
    match splitFirst ' ' request with
    | none => ⟨st, 400, ""⟩
    | some (verb, rest) =>
      if verb = "subscribe" then
        match find_channel (chanNameOf rest) st with
        | none => ⟨st, 400, ""⟩
        | some ci => ⟨(subscribe reg sd (fmtOf rest) ci st).st, 0, ""⟩
      else if verb = "unsubscribe" then
        match find_channel (chanNameOf rest) st with
        | none => ⟨st, 400, ""⟩
        | some ci => ⟨(unsubscribe sd ci st).st, 0, ""⟩
      else ⟨st, 400, ""⟩

/-- Modelled from the spec: NEBCALLBACK_NUMITEMS, the number of event-kind
tags of the host's nebcallbacks header, which is not part of this fragment. -/
def NEBCALLBACK_NUMITEMS : Nat := 33

/-- Modelled from the spec: the host-check event-kind tag of the host's
nebcallbacks header (not part of this fragment). -/
def NEBCALLBACK_HOST_CHECK_DATA : Nat := 8

/-- Modelled from the spec: the service-check event-kind tag of the host's
nebcallbacks header (not part of this fragment). -/
def NEBCALLBACK_SERVICE_CHECK_DATA : Nat := 7

/-- Embeds `nerd_mkchan`: appends a channel with no subscribers whose
callback list collects, in increasing order, the bits set in the callback
mask below NEBCALLBACK_NUMITEMS; returns the new channel's id (its index). -/
def nerd_mkchan (name description : String) (callbacks : Nat) (st : NerdState) :
    NerdState × Nat :=
  (⟨st.channels ++
      [⟨name, description,
        (List.range NEBCALLBACK_NUMITEMS).filter (fun i => callbacks.testBit i), []⟩],
    st.broker⟩, st.channels.length)

/-- The registry `nerd_init` builds: the `hostchecks` and `servicechecks`
channels, each wired to one callback via `nebcallback_flag`. -/
def nerd_init_state : NerdState :=
  (nerd_mkchan "servicechecks" "Service check results"
    (2 ^ NEBCALLBACK_SERVICE_CHECK_DATA)
    (nerd_mkchan "hostchecks" "Host check results" (2 ^ NEBCALLBACK_HOST_CHECK_DATA)
      ⟨[], []⟩).1).1

/-- One subscription-management operation, as reachable from the query
handler (`subscribe`, `unsubscribe`) or from a dropped connection
(`nerd_cancel_subscriber`). -/
inductive NerdOp where
  | sub (reg : Nat → Int) (sd : Sd) (fmt : Option String) (ci : Nat)
  | unsub (sd : Sd) (ci : Nat)
  | cancel (sd : Sd)

/-- State change and collaborator calls of one operation. -/
def applyOp (st : NerdState) : NerdOp → NerdState × List NerdEvent
  | NerdOp.sub reg sd fmt ci =>
      ((subscribe reg sd fmt ci st).st, (subscribe reg sd fmt ci st).evs)
  | NerdOp.unsub sd ci => ((unsubscribe sd ci st).st, (unsubscribe sd ci st).evs)
  | NerdOp.cancel sd =>
      ((nerd_cancel_subscriber sd st).st, (nerd_cancel_subscriber sd st).evs)

/-- Runs a sequence of operations. -/
def runOps : NerdState → List NerdOp → NerdState
  | st, [] => st
  | st, op :: rest => runOps (applyOp st op).1 rest

/-- All `neb_register_callback` calls an operation could make succeed. -/
def regAlwaysOk : NerdOp → Prop
  | NerdOp.sub reg _ _ _ => ∀ cb, reg cb = 0
  | _ => True

/-- The activation invariant for one channel: its declared callbacks are all
registered when its subscriber list is non-empty, and none of them is
registered when the list is empty. -/
def chanOk (broker : List (Nat × Nat)) (ci : Nat) (chan : NerdChannel) : Prop :=
  (chan.subscriptions ≠ [] → ∀ cb ∈ chan.callbacks, (ci, cb) ∈ broker) ∧
  (chan.subscriptions = [] → ∀ cb ∈ chan.callbacks, (ci, cb) ∉ broker)

/-- The activation invariant over the whole registry. -/
def activationInvariant (st : NerdState) : Prop :=
  ∀ ci chan, st.channels[ci]? = some chan → chanOk st.broker ci chan

/-- Edge-triggering of one operation: a registration call is issued only when
the channel's list was empty before the operation and non-empty after it, and
a deregistration call only when the channel's list is empty after the
operation. -/
def stepEdgeOk (st st' : NerdState) (evs : List NerdEvent) : Prop :=
  (∀ ci cb r, NerdEvent.registerCb ci cb r ∈ evs →
    (∃ chan, st.channels[ci]? = some chan ∧ chan.subscriptions = []) ∧
    (∃ chan, st'.channels[ci]? = some chan ∧ chan.subscriptions ≠ [])) ∧
  (∀ ci cb, NerdEvent.deregisterCb ci cb ∈ evs →
    ∃ chan, st'.channels[ci]? = some chan ∧ chan.subscriptions = [])

/-- Edge-triggering along a whole operation sequence. -/
def edgeTriggered : NerdState → List NerdOp → Prop
  | _, [] => True
  | st, op :: rest =>
    stepEdgeOk st (applyOp st op).1 (applyOp st op).2 ∧
      edgeTriggered (applyOp st op).1 rest

theorem register_all_ok (reg : Nat → Int) (cbs : List Nat)
    (hok : ∀ cb ∈ cbs, reg cb = 0) :
    nerd_register_channel_callbacks reg cbs = (cbs, 0) := by
  induction cbs with
  | nil => rfl
  | cons cb rest ih =>
    have h1 : reg cb = 0 := hok cb (List.mem_cons_self cb rest)
    have h2 := ih (fun c hc => hok c (List.mem_cons_of_mem cb hc))
    simp [nerd_register_channel_callbacks, h1, h2]

theorem regEvents_all_ok (reg : Nat → Int) (ci : Nat) (cbs : List Nat)
    (hok : ∀ cb ∈ cbs, reg cb = 0) :
    regEvents reg ci cbs = cbs.map (fun cb => NerdEvent.registerCb ci cb 0) := by
  unfold regEvents
  rw [register_all_ok reg cbs hok]
  exact List.map_congr_left (fun cb hcb => by rw [hok cb hcb])

theorem mem_foldl_registerOk (ci : Nat) (cbs : List Nat) (b : List (Nat × Nat))
    (p : Nat × Nat) :
    (p ∈ (cbs.map (fun cb => NerdEvent.registerCb ci cb 0)).foldl brokerStep b) ↔
      p ∈ b ∨ ∃ cb ∈ cbs, p = (ci, cb) := by
  induction cbs generalizing b with
  | nil => simp
  | cons cb rest ih =>
    simp only [List.map_cons, List.foldl_cons]
    rw [ih]
    rw [show brokerStep b (NerdEvent.registerCb ci cb 0) = (ci, cb) :: b from by
      simp [brokerStep]]
    constructor
    · rintro (hmem | ⟨c, hc, rfl⟩)
      · rcases List.mem_cons.mp hmem with h | h
        · exact Or.inr ⟨cb, List.mem_cons_self cb rest, h⟩
        · exact Or.inl h
      · exact Or.inr ⟨c, List.mem_cons_of_mem cb hc, rfl⟩
    · rintro (hmem | ⟨c, hc, rfl⟩)
      · exact Or.inl (List.mem_cons_of_mem _ hmem)
      · rcases List.mem_cons.mp hc with h | h
        · subst h; exact Or.inl (List.mem_cons_self _ _)
        · exact Or.inr ⟨c, h, rfl⟩

theorem mem_foldl_deregister (ci : Nat) (cbs : List Nat) (b : List (Nat × Nat))
    (p : Nat × Nat) :
    (p ∈ (deregEvents ci cbs).foldl brokerStep b) ↔
      p ∈ b ∧ ∀ cb ∈ cbs, p ≠ (ci, cb) := by
  induction cbs generalizing b with
  | nil => simp [deregEvents]
  | cons cb rest ih =>
    rw [show deregEvents ci (cb :: rest) =
        NerdEvent.deregisterCb ci cb :: deregEvents ci rest from rfl,
      List.foldl_cons, ih]
    rw [show brokerStep b (NerdEvent.deregisterCb ci cb) =
        b.filter (fun q => decide (q ≠ (ci, cb))) from rfl]
    simp only [List.mem_filter, decide_eq_true_eq, List.mem_cons]
    constructor
    · rintro ⟨⟨hb2, hne⟩, hrest⟩
      refine ⟨hb2, fun c hc => ?_⟩
      rcases hc with h | h
      · rw [h]; exact hne
      · exact hrest c h
    · rintro ⟨hb2, hall⟩
      exact ⟨⟨hb2, hall cb (Or.inl rfl)⟩, fun c hc => hall c (Or.inr hc)⟩

theorem remove_matching_eq_filter (sd : Sd) (l : List NerdSubscription) :
    remove_matching sd l = l.filter (fun s => decide (s.sd ≠ sd)) := by
  induction l with
  | nil => rfl
  | cons s rest ih =>
    by_cases h : s.sd = sd <;> simp [remove_matching, List.filter_cons, h, ih]

theorem sd_ne_of_mem_remove_matching (sd : Sd) (l : List NerdSubscription)
    (s : NerdSubscription) (hs : s ∈ remove_matching sd l) : s.sd ≠ sd := by
  rw [remove_matching_eq_filter] at hs
  exact of_decide_eq_true (List.mem_filter.mp hs).2

theorem subscribe_channels_self (reg : Nat → Int) (sd : Sd) (fmt : Option String)
    (ci : Nat) (st : NerdState) (chan : NerdChannel)
    (hch : st.channels[ci]? = some chan) :
    (subscribe reg sd fmt ci st).st.channels[ci]? =
      some { chan with subscriptions := ⟨sd, fmt⟩ :: chan.subscriptions } := by
  obtain ⟨hlt, -⟩ := List.getElem?_eq_some.mp hch
  simp [subscribe, hch, List.getElem?_set_eq_of_lt _ hlt]

theorem subscribe_channels_other (reg : Nat → Int) (sd : Sd) (fmt : Option String)
    (ci cj : Nat) (st : NerdState) (hne : cj ≠ ci) :
    (subscribe reg sd fmt ci st).st.channels[cj]? = st.channels[cj]? := by
  cases hch : st.channels[ci]? with
  | none => simp [subscribe, hch]
  | some chan => simp [subscribe, hch, List.getElem?_set_ne (Ne.symm hne)]

theorem subscribe_broker (reg : Nat → Int) (sd : Sd) (fmt : Option String)
    (ci : Nat) (st : NerdState) (chan : NerdChannel)
    (hch : st.channels[ci]? = some chan) :
    (subscribe reg sd fmt ci st).st.broker =
      (if chan.subscriptions = [] then regEvents reg ci chan.callbacks else []).foldl
        brokerStep st.broker := by
  simp [subscribe, hch]

theorem subscribe_evs (reg : Nat → Int) (sd : Sd) (fmt : Option String)
    (ci : Nat) (st : NerdState) (chan : NerdChannel)
    (hch : st.channels[ci]? = some chan) :
    (subscribe reg sd fmt ci st).evs =
      if chan.subscriptions = [] then regEvents reg ci chan.callbacks else [] := by
  simp [subscribe, hch]

theorem chanRemoveStep_none (sd : Sd) (ci : Nat) (st : NerdState)
    (hch : st.channels[ci]? = none) : chanRemoveStep sd ci st = (st, []) := by
  simp [chanRemoveStep, hch]

theorem chanRemoveStep_self (sd : Sd) (ci : Nat) (st : NerdState) (chan : NerdChannel)
    (hch : st.channels[ci]? = some chan) :
    ((chanRemoveStep sd ci st).1).channels[ci]? =
      some { chan with subscriptions := remove_matching sd chan.subscriptions } := by
  obtain ⟨hlt, -⟩ := List.getElem?_eq_some.mp hch
  simp [chanRemoveStep, hch, List.getElem?_set_eq_of_lt _ hlt]

theorem chanRemoveStep_other (sd : Sd) (ci cj : Nat) (st : NerdState) (hne : cj ≠ ci) :
    ((chanRemoveStep sd ci st).1).channels[cj]? = st.channels[cj]? := by
  cases hch : st.channels[ci]? with
  | none => simp [chanRemoveStep, hch]
  | some chan => simp [chanRemoveStep, hch, List.getElem?_set_ne (Ne.symm hne)]

theorem chanRemoveStep_broker (sd : Sd) (ci : Nat) (st : NerdState) (chan : NerdChannel)
    (hch : st.channels[ci]? = some chan) :
    ((chanRemoveStep sd ci st).1).broker =
      (if remove_matching sd chan.subscriptions = [] then deregEvents ci chan.callbacks
        else []).foldl brokerStep st.broker := by
  simp [chanRemoveStep, hch]

theorem chanRemoveStep_evs (sd : Sd) (ci : Nat) (st : NerdState) (chan : NerdChannel)
    (hch : st.channels[ci]? = some chan) :
    (chanRemoveStep sd ci st).2 =
      if remove_matching sd chan.subscriptions = [] then deregEvents ci chan.callbacks
      else [] := by
  simp [chanRemoveStep, hch]

theorem chanRemoveStep_length (sd : Sd) (ci : Nat) (st : NerdState) :
    ((chanRemoveStep sd ci st).1).channels.length = st.channels.length := by
  cases hch : st.channels[ci]? with
  | none => simp [chanRemoveStep, hch]
  | some chan => simp [chanRemoveStep, hch]

theorem subscribe_step (reg : Nat → Int) (sd : Sd) (fmt : Option String) (ci : Nat)
    (st : NerdState) (hreg : ∀ cb, reg cb = 0) (hinv : activationInvariant st) :
    activationInvariant (subscribe reg sd fmt ci st).st ∧
    stepEdgeOk st (subscribe reg sd fmt ci st).st (subscribe reg sd fmt ci st).evs := by
  cases hch : st.channels[ci]? with
  | none =>
    rw [show subscribe reg sd fmt ci st = ⟨st, [], 0⟩ from by simp [subscribe, hch]]
    exact ⟨hinv, fun _ _ _ h => absurd h (List.not_mem_nil _),
      fun _ _ h => absurd h (List.not_mem_nil _)⟩
  | some chan =>
    have hok' : ∀ cb ∈ chan.callbacks, reg cb = 0 := fun cb _ => hreg cb
    by_cases hemp : chan.subscriptions = []
    · have hevs : (subscribe reg sd fmt ci st).evs =
          chan.callbacks.map (fun cb => NerdEvent.registerCb ci cb 0) := by
        rw [subscribe_evs reg sd fmt ci st chan hch, if_pos hemp,
          regEvents_all_ok reg ci chan.callbacks hok']
      have hbrok : (subscribe reg sd fmt ci st).st.broker =
          (chan.callbacks.map (fun cb => NerdEvent.registerCb ci cb 0)).foldl
            brokerStep st.broker := by
        rw [subscribe_broker reg sd fmt ci st chan hch, if_pos hemp,
          regEvents_all_ok reg ci chan.callbacks hok']
      have hmem : ∀ p, p ∈ (subscribe reg sd fmt ci st).st.broker ↔
          p ∈ st.broker ∨ ∃ cb ∈ chan.callbacks, p = (ci, cb) := by
        intro p; rw [hbrok]; exact mem_foldl_registerOk ci chan.callbacks st.broker p
      refine ⟨?_, ?_, ?_⟩
      · intro cj chanj hj
        by_cases hij : cj = ci
        · subst hij
          rw [subscribe_channels_self reg sd fmt cj st chan hch] at hj
          cases hj
          constructor
          · intro _ cb hcb
            exact (hmem (cj, cb)).mpr (Or.inr ⟨cb, hcb, rfl⟩)
          · intro habs; simp at habs
        · rw [subscribe_channels_other reg sd fmt ci cj st hij] at hj
          have hcOld := hinv cj chanj hj
          constructor
          · intro hne2 cb hcb
            exact (hmem (cj, cb)).mpr (Or.inl (hcOld.1 hne2 cb hcb))
          · intro he cb hcb hp
            rcases (hmem (cj, cb)).mp hp with h | ⟨c, _, heq⟩
            · exact hcOld.2 he cb hcb h
            · exact hij (congrArg Prod.fst heq)
      · intro ci0 cb0 r0 hm
        rw [hevs] at hm
        rcases List.mem_map.mp hm with ⟨cb, _, heq⟩
        cases heq
        refine ⟨⟨chan, hch, hemp⟩, ?_⟩
        exact ⟨{ chan with subscriptions := ⟨sd, fmt⟩ :: chan.subscriptions },
          subscribe_channels_self reg sd fmt ci st chan hch, by simp⟩
      · intro ci0 cb0 hm
        rw [hevs] at hm
        rcases List.mem_map.mp hm with ⟨cb, _, heq⟩
        cases heq
    · have hevs : (subscribe reg sd fmt ci st).evs = [] := by
        rw [subscribe_evs reg sd fmt ci st chan hch, if_neg hemp]
      have hbrok : (subscribe reg sd fmt ci st).st.broker = st.broker := by
        rw [subscribe_broker reg sd fmt ci st chan hch, if_neg hemp, List.foldl_nil]
      refine ⟨?_, ?_, ?_⟩
      · intro cj chanj hj
        by_cases hij : cj = ci
        · subst hij
          rw [subscribe_channels_self reg sd fmt cj st chan hch] at hj
          cases hj
          rw [show chanOk (subscribe reg sd fmt cj st).st.broker cj
              { chan with subscriptions := ⟨sd, fmt⟩ :: chan.subscriptions } =
              chanOk st.broker cj
              { chan with subscriptions := ⟨sd, fmt⟩ :: chan.subscriptions } from by
            rw [hbrok]]
          constructor
          · intro _ cb hcb
            exact (hinv cj chan hch).1 hemp cb hcb
          · intro habs; simp at habs
        · rw [subscribe_channels_other reg sd fmt ci cj st hij] at hj
          rw [show (subscribe reg sd fmt ci st).st.broker = st.broker from hbrok]
          exact hinv cj chanj hj
      · intro ci0 cb0 r0 hm
        rw [hevs] at hm
        exact absurd hm (List.not_mem_nil _)
      · intro ci0 cb0 hm
        rw [hevs] at hm
        exact absurd hm (List.not_mem_nil _)

theorem chanRemoveStep_step (sd : Sd) (ci : Nat) (st : NerdState)
    (hinv : activationInvariant st) :
    activationInvariant (chanRemoveStep sd ci st).1 ∧
    (∀ e ∈ (chanRemoveStep sd ci st).2, ∃ cb, e = NerdEvent.deregisterCb ci cb) ∧
    (∀ ci0 cb, NerdEvent.deregisterCb ci0 cb ∈ (chanRemoveStep sd ci st).2 →
      ∃ chanj, ((chanRemoveStep sd ci st).1).channels[ci0]? = some chanj ∧
        chanj.subscriptions = []) := by
  cases hch : st.channels[ci]? with
  | none =>
    rw [chanRemoveStep_none sd ci st hch]
    exact ⟨hinv, fun _ h => absurd h (List.not_mem_nil _),
      fun _ _ h => absurd h (List.not_mem_nil _)⟩
  | some chan =>
    by_cases hemp : remove_matching sd chan.subscriptions = []
    · have hevs : (chanRemoveStep sd ci st).2 = deregEvents ci chan.callbacks := by
        rw [chanRemoveStep_evs sd ci st chan hch, if_pos hemp]
      have hbrok : ((chanRemoveStep sd ci st).1).broker =
          (deregEvents ci chan.callbacks).foldl brokerStep st.broker := by
        rw [chanRemoveStep_broker sd ci st chan hch, if_pos hemp]
      have hmem : ∀ p, p ∈ ((chanRemoveStep sd ci st).1).broker ↔
          p ∈ st.broker ∧ ∀ cb ∈ chan.callbacks, p ≠ (ci, cb) := by
        intro p; rw [hbrok]; exact mem_foldl_deregister ci chan.callbacks st.broker p
      refine ⟨?_, ?_, ?_⟩
      · intro cj chanj hj
        by_cases hij : cj = ci
        · subst hij
          rw [chanRemoveStep_self sd cj st chan hch] at hj
          cases hj
          constructor
          · intro hne2; exact absurd hemp hne2
          · intro _ cb hcb hp
            exact ((hmem (cj, cb)).mp hp).2 cb hcb rfl
        · rw [chanRemoveStep_other sd ci cj st hij] at hj
          have hcOld := hinv cj chanj hj
          constructor
          · intro hne2 cb hcb
            refine (hmem (cj, cb)).mpr ⟨hcOld.1 hne2 cb hcb, ?_⟩
            intro cb' _ heq
            exact hij (congrArg Prod.fst heq)
          · intro he cb hcb hp
            exact hcOld.2 he cb hcb ((hmem (cj, cb)).mp hp).1
      · intro e he
        rw [hevs] at he
        rcases List.mem_map.mp he with ⟨cb, _, heq⟩
        exact ⟨cb, heq.symm⟩
      · intro ci0 cb0 hm
        rw [hevs] at hm
        rcases List.mem_map.mp hm with ⟨cb, _, heq⟩
        cases heq
        exact ⟨{ chan with subscriptions := remove_matching sd chan.subscriptions },
          chanRemoveStep_self sd ci st chan hch, hemp⟩
    · have hevs : (chanRemoveStep sd ci st).2 = [] := by
        rw [chanRemoveStep_evs sd ci st chan hch, if_neg hemp]
      have hbrok : ((chanRemoveStep sd ci st).1).broker = st.broker := by
        rw [chanRemoveStep_broker sd ci st chan hch, if_neg hemp, List.foldl_nil]
      refine ⟨?_, ?_, ?_⟩
      · intro cj chanj hj
        by_cases hij : cj = ci
        · subst hij
          rw [chanRemoveStep_self sd cj st chan hch] at hj
          cases hj
          rw [show chanOk ((chanRemoveStep sd cj st).1).broker cj
              { chan with subscriptions := remove_matching sd chan.subscriptions } =
              chanOk st.broker cj
              { chan with subscriptions := remove_matching sd chan.subscriptions } from by
            rw [hbrok]]
          have hsub_ne : chan.subscriptions ≠ [] := by
            intro h0
            exact hemp (by rw [h0]; rfl)
          constructor
          · intro _ cb hcb
            exact (hinv cj chan hch).1 hsub_ne cb hcb
          · intro habs; exact absurd habs hemp
        · rw [chanRemoveStep_other sd ci cj st hij] at hj
          rw [show ((chanRemoveStep sd ci st).1).broker = st.broker from hbrok]
          exact hinv cj chanj hj
      · intro e he
        rw [hevs] at he
        exact absurd he (List.not_mem_nil _)
      · intro ci0 cb0 hm
        rw [hevs] at hm
        exact absurd hm (List.not_mem_nil _)

theorem cancel_step_st (sd : Sd) (i : Nat) (st : NerdState) :
    (cancel_channel_subscription sd i st).st = (chanRemoveStep sd i st).1 := rfl

theorem cancel_step_evs (sd : Sd) (i : Nat) (st : NerdState) :
    (cancel_channel_subscription sd i st).evs = (chanRemoveStep sd i st).2 := rfl

theorem cancelAllLoop_length (sd : Sd) (I : List Nat) :
    ∀ st : NerdState, (cancelAllLoop sd st I).1.channels.length = st.channels.length := by
  induction I with
  | nil => intro st; rfl
  | cons i rest ih =>
    intro st
    show (cancelAllLoop sd (cancel_channel_subscription sd i st).st rest).1.channels.length =
      st.channels.length
    rw [ih, cancel_step_st, chanRemoveStep_length]

theorem cancelAllLoop_not_mem (sd : Sd) (ci : Nat) (I : List Nat) :
    ∀ st : NerdState, ci ∉ I →
      (cancelAllLoop sd st I).1.channels[ci]? = st.channels[ci]? := by
  induction I with
  | nil => intro st _; rfl
  | cons i rest ih =>
    intro st hnm
    have h1 : ci ≠ i := fun h => hnm (h ▸ List.mem_cons_self i rest)
    have h2 : ci ∉ rest := fun h => hnm (List.mem_cons_of_mem i h)
    show (cancelAllLoop sd (cancel_channel_subscription sd i st).st rest).1.channels[ci]? =
      st.channels[ci]?
    rw [ih _ h2, cancel_step_st, chanRemoveStep_other sd i ci st h1]

theorem cancelAllLoop_mem_channels (sd : Sd) (ci : Nat) (I : List Nat) :
    ∀ (st : NerdState) (chan : NerdChannel), I.Nodup → ci ∈ I →
      st.channels[ci]? = some chan →
      (cancelAllLoop sd st I).1.channels[ci]? =
        some { chan with subscriptions := remove_matching sd chan.subscriptions } := by
  induction I with
  | nil => intro st chan _ hm; exact absurd hm (List.not_mem_nil ci)
  | cons i rest ih =>
    intro st chan hnd hm hch
    have hnd2 := List.nodup_cons.mp hnd
    show (cancelAllLoop sd (cancel_channel_subscription sd i st).st rest).1.channels[ci]? = _
    rcases List.mem_cons.mp hm with h | h
    · subst h
      rw [cancelAllLoop_not_mem sd ci rest _ hnd2.1, cancel_step_st,
        chanRemoveStep_self sd ci st chan hch]
    · have h1 : ci ≠ i := fun h0 => hnd2.1 (h0 ▸ h)
      refine ih _ chan hnd2.2 h ?_
      rw [cancel_step_st, chanRemoveStep_other sd i ci st h1]
      exact hch

theorem cancelAllLoop_invariant (sd : Sd) (I : List Nat) :
    ∀ st : NerdState, activationInvariant st →
      activationInvariant (cancelAllLoop sd st I).1 := by
  induction I with
  | nil => intro st hinv; exact hinv
  | cons i rest ih =>
    intro st hinv
    show activationInvariant
      (cancelAllLoop sd (cancel_channel_subscription sd i st).st rest).1
    refine ih _ ?_
    rw [cancel_step_st]
    exact (chanRemoveStep_step sd i st hinv).1

theorem cancelAllLoop_evs_shape (sd : Sd) (I : List Nat) :
    ∀ st : NerdState, I.Nodup → activationInvariant st →
      ∀ e ∈ (cancelAllLoop sd st I).2,
        ∃ i cb, i ∈ I ∧ e = NerdEvent.deregisterCb i cb ∧
          ∃ chanj, (cancelAllLoop sd st I).1.channels[i]? = some chanj ∧
            chanj.subscriptions = [] := by
  induction I with
  | nil => intro st _ _ e he; exact absurd he (List.not_mem_nil e)
  | cons i rest ih =>
    intro st hnd hinv e he
    have hnd2 := List.nodup_cons.mp hnd
    rw [show (cancelAllLoop sd st (i :: rest)).2 =
        (cancel_channel_subscription sd i st).evs ++
          (cancelAllLoop sd (cancel_channel_subscription sd i st).st rest).2 from rfl] at he
    have hfinal : (cancelAllLoop sd st (i :: rest)).1 =
        (cancelAllLoop sd (cancel_channel_subscription sd i st).st rest).1 := rfl
    rcases List.mem_append.mp he with h | h
    · rw [cancel_step_evs] at h
      rcases (chanRemoveStep_step sd i st hinv).2.1 e h with ⟨cb, rfl⟩
      rcases (chanRemoveStep_step sd i st hinv).2.2 i cb h with ⟨chanj, hcj, hcje⟩
      refine ⟨i, cb, List.mem_cons_self i rest, rfl, chanj, ?_, hcje⟩
      rw [hfinal, cancelAllLoop_not_mem sd i rest _ hnd2.1, cancel_step_st]
      exact hcj
    · have hinv1 : activationInvariant (cancel_channel_subscription sd i st).st := by
        rw [cancel_step_st]; exact (chanRemoveStep_step sd i st hinv).1
      rcases ih _ hnd2.2 hinv1 e h with ⟨i', cb, hi', heq, chanj, hcj, hcje⟩
      exact ⟨i', cb, List.mem_cons_of_mem i hi', heq, chanj, by rw [hfinal]; exact hcj, hcje⟩

theorem cancel_subscriber_st (sd : Sd) (st : NerdState) :
    (nerd_cancel_subscriber sd st).st =
      (cancelAllLoop sd st (List.range st.channels.length)).1 := rfl

theorem cancel_subscriber_evs (sd : Sd) (st : NerdState) :
    (nerd_cancel_subscriber sd st).evs =
      (cancelAllLoop sd st (List.range st.channels.length)).2 ++
        [NerdEvent.closeSd sd] := rfl

theorem cancel_subscriber_length (sd : Sd) (st : NerdState) :
    (nerd_cancel_subscriber sd st).st.channels.length = st.channels.length := by
  rw [cancel_subscriber_st, cancelAllLoop_length]

theorem cancel_subscriber_channels (sd : Sd) (st : NerdState) (ci : Nat)
    (chan : NerdChannel) (hch : st.channels[ci]? = some chan) :
    (nerd_cancel_subscriber sd st).st.channels[ci]? =
      some { chan with subscriptions := remove_matching sd chan.subscriptions } := by
  obtain ⟨hlt, -⟩ := List.getElem?_eq_some.mp hch
  rw [cancel_subscriber_st]
  exact cancelAllLoop_mem_channels sd ci (List.range st.channels.length) st chan
    (List.nodup_range _) (List.mem_range.mpr hlt) hch

theorem cancel_subscriber_step (sd : Sd) (st : NerdState)
    (hinv : activationInvariant st) :
    activationInvariant (nerd_cancel_subscriber sd st).st ∧
    stepEdgeOk st (nerd_cancel_subscriber sd st).st (nerd_cancel_subscriber sd st).evs := by
  refine ⟨?_, ?_, ?_⟩
  · rw [cancel_subscriber_st]
    exact cancelAllLoop_invariant sd _ st hinv
  · intro ci0 cb0 r0 hm
    rw [cancel_subscriber_evs] at hm
    rcases List.mem_append.mp hm with h | h
    · rcases cancelAllLoop_evs_shape sd _ st (List.nodup_range _) hinv _ h with
        ⟨i, cb, _, heq, -⟩
      cases heq
    · rcases List.mem_cons.mp h with h0 | h0
      · cases h0
      · exact absurd h0 (List.not_mem_nil _)
  · intro ci0 cb0 hm
    rw [cancel_subscriber_evs] at hm
    rcases List.mem_append.mp hm with h | h
    · rcases cancelAllLoop_evs_shape sd _ st (List.nodup_range _) hinv _ h with
        ⟨i, cb, _, heq, chanj, hcj, hcje⟩
      cases heq
      exact ⟨chanj, by rw [cancel_subscriber_st]; exact hcj, hcje⟩
    · rcases List.mem_cons.mp h with h0 | h0
      · cases h0
      · exact absurd h0 (List.not_mem_nil _)

theorem applyOp_step (st : NerdState) (op : NerdOp) (hop : regAlwaysOk op)
    (hinv : activationInvariant st) :
    activationInvariant (applyOp st op).1 ∧
    stepEdgeOk st (applyOp st op).1 (applyOp st op).2 := by
  cases op with
  | sub reg sd fmt ci => exact subscribe_step reg sd fmt ci st hop hinv
  | unsub sd ci =>
    have h := chanRemoveStep_step sd ci st hinv
    refine ⟨h.1, ?_, ?_⟩
    · intro ci0 cb0 r0 hm
      rcases h.2.1 _ hm with ⟨cb, heq⟩
      cases heq
    · intro ci0 cb0 hm
      exact h.2.2 ci0 cb0 hm
  | cancel sd => exact cancel_subscriber_step sd st hinv

theorem runOps_invariant_edge (ops : List NerdOp) :
    ∀ st : NerdState, activationInvariant st → (∀ op ∈ ops, regAlwaysOk op) →
      activationInvariant (runOps st ops) ∧ edgeTriggered st ops := by
  induction ops with
  | nil => intro st hinv _; exact ⟨hinv, trivial⟩
  | cons op rest ih =>
    intro st hinv hok
    have hstep := applyOp_step st op (hok op (List.mem_cons_self op rest)) hinv
    have hrest := ih (applyOp st op).1 hstep.1
      (fun o ho => hok o (List.mem_cons_of_mem op ho))
    exact ⟨hrest.1, hstep.2, hrest.2⟩

theorem activationInvariant_of_empty (st : NerdState) (hb : st.broker = [])
    (hs : ∀ chan ∈ st.channels, chan.subscriptions = []) : activationInvariant st := by
  intro ci chan hch
  have hmem : chan ∈ st.channels := by
    obtain ⟨hlt, hget⟩ := List.getElem?_eq_some.mp hch
    exact hget ▸ List.getElem_mem hlt
  constructor
  · intro hne; exact absurd (hs chan hmem) hne
  · intro _ cb _ hp; rw [hb] at hp; exact absurd hp (List.not_mem_nil _)

theorem nerd_init_invariant : activationInvariant nerd_init_state :=
  activationInvariant_of_empty nerd_init_state rfl (by decide)

/-- C1: after any sequence of subscribe, unsubscribe and cancel-subscriber
operations on a registry satisfying the activation invariant - with the
event-broker accepting every registration - every channel's declared host
callbacks are registered exactly when its subscriber list is non-empty;
moreover registration calls are issued only on a 0-to-1 transition of the
channel's list, and deregistration calls only when the channel's list is
empty after the operation. -/
theorem nerd_activation_invariant_holds (st : NerdState) (ops : List NerdOp)
    (hinv : activationInvariant st) (hok : ∀ op ∈ ops, regAlwaysOk op) :
    activationInvariant (runOps st ops) ∧ edgeTriggered st ops :=
  runOps_invariant_edge ops st hinv hok

/-- Witness for C1 at the registry nerd_init builds, with two subscribers
arriving on the hostchecks channel, one leaving, and one dropped connection. -/
theorem nerd_activation_invariant_holds_witness :
    activationInvariant (runOps nerd_init_state
      [NerdOp.sub (fun _ => 0) 5 none 0, NerdOp.sub (fun _ => 0) 6 none 0,
        NerdOp.unsub 5 0, NerdOp.cancel 6]) ∧
    edgeTriggered nerd_init_state
      [NerdOp.sub (fun _ => 0) 5 none 0, NerdOp.sub (fun _ => 0) 6 none 0,
        NerdOp.unsub 5 0, NerdOp.cancel 6] :=
  nerd_activation_invariant_holds nerd_init_state
    [NerdOp.sub (fun _ => 0) 5 none 0, NerdOp.sub (fun _ => 0) 6 none 0,
      NerdOp.unsub 5 0, NerdOp.cancel 6]
    nerd_init_invariant (by
      intro op hop
      rcases List.mem_cons.mp hop with rfl | hop
      · exact fun _ => rfl
      rcases List.mem_cons.mp hop with rfl | hop
      · exact fun _ => rfl
      rcases List.mem_cons.mp hop with rfl | hop
      · exact trivial
      rcases List.mem_cons.mp hop with rfl | hop
      · exact trivial
      · exact absurd hop (List.not_mem_nil _))

theorem broadcast_loop_all_ok (send : Sd → SendResult) (st : NerdState)
    (l : List NerdSubscription) (hok : ∀ s ∈ l, send s.sd = SendResult.ok) :
    nerd_broadcast_loop send st l =
      ⟨st, [], 0, l.map (fun s => s.sd), l.map (fun s => s.sd)⟩ := by
  induction l with
  | nil => rfl
  | cons s rest ih =>
    have h1 : send s.sd = SendResult.ok := hok s (List.mem_cons_self s rest)
    have h2 := ih (fun t ht => hok t (List.mem_cons_of_mem s ht))
    simp [nerd_broadcast_loop, h1, h2]

theorem broadcast_loop_wouldblock (send : Sd → SendResult) (st : NerdState)
    (l1 : List NerdSubscription) (s : NerdSubscription) (l2 : List NerdSubscription)
    (hok : ∀ t ∈ l1, send t.sd = SendResult.ok)
    (hwb : send s.sd = SendResult.wouldBlock) :
    nerd_broadcast_loop send st (l1 ++ s :: l2) =
      ⟨st, [], 0, l1.map (fun t => t.sd) ++ [s.sd], l1.map (fun t => t.sd)⟩ := by
  induction l1 with
  | nil => simp [nerd_broadcast_loop, hwb]
  | cons x rest ih =>
    have h1 : send x.sd = SendResult.ok := hok x (List.mem_cons_self x rest)
    have h2 := ih (fun t ht => hok t (List.mem_cons_of_mem x ht))
    simp [nerd_broadcast_loop, h1, h2]

theorem broadcast_loop_err (send : Sd → SendResult) (st : NerdState)
    (l1 : List NerdSubscription) (s : NerdSubscription) (l2 : List NerdSubscription)
    (hok : ∀ t ∈ l1, send t.sd = SendResult.ok)
    (herr : send s.sd = SendResult.err) :
    nerd_broadcast_loop send st (l1 ++ s :: l2) =
      ⟨(nerd_cancel_subscriber s.sd st).st, (nerd_cancel_subscriber s.sd st).evs, 500,
        l1.map (fun t => t.sd) ++ [s.sd], l1.map (fun t => t.sd)⟩ := by
  induction l1 with
  | nil => simp [nerd_broadcast_loop, herr]
  | cons x rest ih =>
    have h1 : send x.sd = SendResult.ok := hok x (List.mem_cons_self x rest)
    have h2 := ih (fun t ht => hok t (List.mem_cons_of_mem x ht))
    simp [nerd_broadcast_loop, h1, h2]

/-- C2: if, while broadcasting on a channel, some subscriber's non-blocking
send fails with the would-block condition (every subscriber before it in
traversal order having been sent to successfully), the broadcast stops at
that subscriber, reports success (0) to the caller, leaves the registry and
broker untouched, and no subscriber after the failing one in traversal order
is attempted or receives the payload: the attempts stop at the failing
subscriber and the deliveries are exactly the subscribers before it. -/
theorem nerd_broadcast_wouldblock_aborts (send : Sd → SendResult) (st : NerdState)
    (chan_id : Nat) (chan : NerdChannel) (l1 : List NerdSubscription)
    (s : NerdSubscription) (l2 : List NerdSubscription)
    (hch : nerd_get_channel st chan_id = some chan)
    (hsubs : chan.subscriptions = l1 ++ s :: l2)
    (hok : ∀ t ∈ l1, send t.sd = SendResult.ok)
    (hwb : send s.sd = SendResult.wouldBlock) :
    nerd_broadcast send chan_id st =
      ⟨st, [], 0, l1.map (fun t => t.sd) ++ [s.sd], l1.map (fun t => t.sd)⟩ := by
  rw [show nerd_broadcast send chan_id st = nerd_broadcast_loop send st chan.subscriptions
      from by simp [nerd_broadcast, hch]]
  rw [hsubs]
  exact broadcast_loop_wouldblock send st l1 s l2 hok hwb

/-- Witness for C2: two subscribers on hostchecks, the first (most recent)
send would-block, so the second subscriber gets nothing and the broadcast
reports success with no state change. -/
theorem nerd_broadcast_wouldblock_aborts_witness :
    nerd_broadcast (fun x => if x = 6 then SendResult.wouldBlock else SendResult.ok) 0
      ⟨[⟨"hostchecks", "Host check results", [8],
          [⟨6, none⟩, ⟨5, none⟩]⟩], [(0, 8)]⟩ =
      ⟨⟨[⟨"hostchecks", "Host check results", [8],
          [⟨6, none⟩, ⟨5, none⟩]⟩], [(0, 8)]⟩, [], 0, [6], []⟩ :=
  nerd_broadcast_wouldblock_aborts
    (fun x => if x = 6 then SendResult.wouldBlock else SendResult.ok) _ 0
    ⟨"hostchecks", "Host check results", [8], [⟨6, none⟩, ⟨5, none⟩]⟩
    [] ⟨6, none⟩ [⟨5, none⟩] (by decide)
    rfl (fun t ht => absurd ht (List.not_mem_nil t)) (by decide)

theorem closeSd_mem_cancel_evs (sd : Sd) (st : NerdState) :
    NerdEvent.closeSd sd ∈ (nerd_cancel_subscriber sd st).evs := by
  rw [cancel_subscriber_evs]
  exact List.mem_append.mpr (Or.inr (List.mem_cons_self _ _))

theorem cancel_subscriber_no_match (sd : Sd) (st : NerdState) (cj : Nat)
    (chanj : NerdChannel)
    (hj : (nerd_cancel_subscriber sd st).st.channels[cj]? = some chanj) :
    ∀ t ∈ chanj.subscriptions, t.sd ≠ sd := by
  obtain ⟨hlt, -⟩ := List.getElem?_eq_some.mp hj
  rw [cancel_subscriber_length] at hlt
  have hch : st.channels[cj]? = some st.channels[cj] := List.getElem?_eq_getElem hlt
  rw [cancel_subscriber_channels sd st cj (st.channels[cj]) hch] at hj
  cases hj
  intro t ht
  exact sd_ne_of_mem_remove_matching sd _ t ht

/-- C3: if, while broadcasting on a channel, some subscriber's send fails
with an error other than would-block (every subscriber before it in
traversal order having been sent to successfully), the broadcast runs
`nerd_cancel_subscriber` for that one connection - removing its
subscriptions from every channel and issuing an `iobroker_close` for its
transport - abandons the rest of the broadcast (attempts stop at the failing
subscriber), and returns 500, a failure status distinct from the 0 returned
both on success and on the would-block outcome. -/
theorem nerd_broadcast_error_cancels (send : Sd → SendResult) (st : NerdState)
    (chan_id : Nat) (chan : NerdChannel) (l1 : List NerdSubscription)
    (s : NerdSubscription) (l2 : List NerdSubscription)
    (hch : nerd_get_channel st chan_id = some chan)
    (hsubs : chan.subscriptions = l1 ++ s :: l2)
    (hok : ∀ t ∈ l1, send t.sd = SendResult.ok)
    (herr : send s.sd = SendResult.err) :
    nerd_broadcast send chan_id st =
      ⟨(nerd_cancel_subscriber s.sd st).st, (nerd_cancel_subscriber s.sd st).evs, 500,
        l1.map (fun t => t.sd) ++ [s.sd], l1.map (fun t => t.sd)⟩ ∧
    (nerd_broadcast send chan_id st).ret ≠ 0 ∧
    NerdEvent.closeSd s.sd ∈ (nerd_broadcast send chan_id st).evs ∧
    ∀ (cj : Nat) (chanj : NerdChannel),
      (nerd_broadcast send chan_id st).st.channels[cj]? = some chanj →
      ∀ t ∈ chanj.subscriptions, t.sd ≠ s.sd := by
  have hb : nerd_broadcast send chan_id st =
      ⟨(nerd_cancel_subscriber s.sd st).st, (nerd_cancel_subscriber s.sd st).evs, 500,
        l1.map (fun t => t.sd) ++ [s.sd], l1.map (fun t => t.sd)⟩ := by
    rw [show nerd_broadcast send chan_id st =
        nerd_broadcast_loop send st chan.subscriptions from by
      simp [nerd_broadcast, hch]]
    rw [hsubs]
    exact broadcast_loop_err send st l1 s l2 hok herr
  refine ⟨hb, ?_, ?_, ?_⟩
  · rw [hb]
    show (500 : Int) ≠ 0
    decide
  · rw [hb]
    show NerdEvent.closeSd s.sd ∈ (nerd_cancel_subscriber s.sd st).evs
    exact closeSd_mem_cancel_evs s.sd st
  · rw [hb]
    show ∀ (cj : Nat) (chanj : NerdChannel),
      (nerd_cancel_subscriber s.sd st).st.channels[cj]? = some chanj →
      ∀ t ∈ chanj.subscriptions, t.sd ≠ s.sd
    exact fun cj chanj hj => cancel_subscriber_no_match s.sd st cj chanj hj

/-- Witness for C3: subscriber 6 sits on both channels; a fatal send failure
to it during a hostchecks broadcast cancels it everywhere, closes its
transport, aborts the broadcast and returns 500. -/
theorem nerd_broadcast_error_cancels_witness :
    nerd_broadcast (fun x => if x = 6 then SendResult.err else SendResult.ok) 0
      ⟨[⟨"hostchecks", "Host check results", [8], [⟨6, none⟩, ⟨5, none⟩]⟩,
         ⟨"servicechecks", "Service check results", [7], [⟨6, none⟩]⟩],
        [(0, 8), (1, 7)]⟩ =
      ⟨(nerd_cancel_subscriber 6
          ⟨[⟨"hostchecks", "Host check results", [8], [⟨6, none⟩, ⟨5, none⟩]⟩,
             ⟨"servicechecks", "Service check results", [7], [⟨6, none⟩]⟩],
            [(0, 8), (1, 7)]⟩).st,
        (nerd_cancel_subscriber 6
          ⟨[⟨"hostchecks", "Host check results", [8], [⟨6, none⟩, ⟨5, none⟩]⟩,
             ⟨"servicechecks", "Service check results", [7], [⟨6, none⟩]⟩],
            [(0, 8), (1, 7)]⟩).evs, 500, [6], []⟩ :=
  (nerd_broadcast_error_cancels
    (fun x => if x = 6 then SendResult.err else SendResult.ok)
    ⟨[⟨"hostchecks", "Host check results", [8], [⟨6, none⟩, ⟨5, none⟩]⟩,
       ⟨"servicechecks", "Service check results", [7], [⟨6, none⟩]⟩],
      [(0, 8), (1, 7)]⟩ 0
    ⟨"hostchecks", "Host check results", [8], [⟨6, none⟩, ⟨5, none⟩]⟩
    [] ⟨6, none⟩ [⟨5, none⟩] (by decide) rfl
    (fun t ht => absurd ht (List.not_mem_nil t)) (by decide)).1

/-- C4: subscribe prepends the new subscription, so after A subscribes and
then B subscribes on the same channel, the channel's list is B, then A, then
the previous subscribers, and a broadcast (with every send succeeding)
attempts delivery to B before A - most-recently-subscribed first. -/
theorem nerd_subscribe_prepend_broadcast_order (regA regB : Nat → Int) (sdA sdB : Sd)
    (fmtA fmtB : Option String) (ci : Nat) (st : NerdState) (chan : NerdChannel)
    (send : Sd → SendResult)
    (hch : st.channels[ci]? = some chan)
    (hsend : ∀ x, send x = SendResult.ok) :
    (subscribe regB sdB fmtB ci (subscribe regA sdA fmtA ci st).st).st.channels[ci]? =
      some { chan with subscriptions :=
        ⟨sdB, fmtB⟩ :: ⟨sdA, fmtA⟩ :: chan.subscriptions } ∧
    (nerd_broadcast send ci
        (subscribe regB sdB fmtB ci (subscribe regA sdA fmtA ci st).st).st).attempts =
      sdB :: sdA :: chan.subscriptions.map (fun s => s.sd) := by
  have h1 := subscribe_channels_self regA sdA fmtA ci st chan hch
  have h2 := subscribe_channels_self regB sdB fmtB ci (subscribe regA sdA fmtA ci st).st
    { chan with subscriptions := ⟨sdA, fmtA⟩ :: chan.subscriptions } h1
  refine ⟨h2, ?_⟩
  rw [show nerd_broadcast send ci
      (subscribe regB sdB fmtB ci (subscribe regA sdA fmtA ci st).st).st =
      nerd_broadcast_loop send
        (subscribe regB sdB fmtB ci (subscribe regA sdA fmtA ci st).st).st
        (⟨sdB, fmtB⟩ :: ⟨sdA, fmtA⟩ :: chan.subscriptions) from by
    simp [nerd_broadcast, nerd_get_channel, h2]]
  rw [broadcast_loop_all_ok send _ _ (fun s _ => hsend s.sd)]
  simp

/-- Witness for C4: connection 5 subscribes to hostchecks, then connection 6;
a broadcast attempts 6 first, then 5. -/
theorem nerd_subscribe_prepend_broadcast_order_witness :
    (subscribe (fun _ => 0) 6 none 0
        (subscribe (fun _ => 0) 5 none 0 nerd_init_state).st).st.channels[0]? =
      some { (⟨"hostchecks", "Host check results", [8], []⟩ : NerdChannel) with
        subscriptions := [⟨6, none⟩, ⟨5, none⟩] } ∧
    (nerd_broadcast (fun _ => SendResult.ok) 0
        (subscribe (fun _ => 0) 6 none 0
          (subscribe (fun _ => 0) 5 none 0 nerd_init_state).st).st).attempts =
      [6, 5] :=
  nerd_subscribe_prepend_broadcast_order (fun _ => 0) (fun _ => 0) 5 6 none none 0
    nerd_init_state ⟨"hostchecks", "Host check results", [8], []⟩
    (fun _ => SendResult.ok) (by decide) (fun _ => rfl)

/-- C5: unsubscribe removes every subscription on the channel whose handle
matches (duplicates included) and keeps the remaining subscriptions in their
original relative order: the resulting list is exactly the original filtered
to the non-matching entries. -/
theorem nerd_unsubscribe_removes_all_matching (sd : Sd) (ci : Nat) (st : NerdState)
    (chan : NerdChannel) (hch : st.channels[ci]? = some chan) :
    (unsubscribe sd ci st).st.channels[ci]? =
      some { chan with subscriptions :=
        chan.subscriptions.filter (fun s => decide (s.sd ≠ sd)) } := by
  rw [show (unsubscribe sd ci st).st = (chanRemoveStep sd ci st).1 from rfl,
    chanRemoveStep_self sd ci st chan hch, remove_matching_eq_filter]

/-- Witness for C5: connection 1 holds two duplicate subscriptions around a
subscription of connection 2; unsubscribing 1 removes both and keeps 2. -/
theorem nerd_unsubscribe_removes_all_matching_witness :
    (unsubscribe 1 0 ⟨[⟨"hostchecks", "Host check results", [8],
        [⟨1, none⟩, ⟨2, none⟩, ⟨1, none⟩]⟩], [(0, 8)]⟩).st.channels[0]? =
      some { (⟨"hostchecks", "Host check results", [8],
          [⟨1, none⟩, ⟨2, none⟩, ⟨1, none⟩]⟩ : NerdChannel) with
        subscriptions :=
          [(⟨1, none⟩ : NerdSubscription), ⟨2, none⟩, ⟨1, none⟩].filter
            (fun s => decide (s.sd ≠ 1)) } :=
  nerd_unsubscribe_removes_all_matching 1 0
    ⟨[⟨"hostchecks", "Host check results", [8],
        [⟨1, none⟩, ⟨2, none⟩, ⟨1, none⟩]⟩], [(0, 8)]⟩
    ⟨"hostchecks", "Host check results", [8], [⟨1, none⟩, ⟨2, none⟩, ⟨1, none⟩]⟩
    (by decide)

/-- C6 counterexample: a channel declaring callbacks 3 and 5 whose first
registration fails: activating it on the first subscriber issues only the
one failing registration call and never attempts callback 5, refuting the
claim that the remaining callbacks are still attempted after a failure. -/
theorem nerd_register_failure_stops_cex :
    (subscribe (fun cb => if cb = 3 then -1 else 0) 9 none 0
        ⟨[⟨"hostchecks", "Host check results", [3, 5], []⟩], []⟩).evs =
      [NerdEvent.registerCb 0 3 (-1)] ∧
    NerdEvent.registerCb 0 5 0 ∉
      (subscribe (fun cb => if cb = 3 then -1 else 0) 9 none 0
        ⟨[⟨"hostchecks", "Host check results", [3, 5], []⟩], []⟩).evs := by
  decide

/-- C6 (amended): activating a channel attempts its declared callbacks in
order and stops at the first registration failure: the failing callback's
registration is the last call issued, the function returns -1 after logging,
and the remaining callbacks are not attempted (the subscription is still
added, the register result being ignored by subscribe). -/
theorem nerd_register_stops_at_first_failure (reg : Nat → Int) (l1 : List Nat)
    (b : Nat) (l2 : List Nat) (hok : ∀ cb ∈ l1, reg cb = 0) (hb : reg b ≠ 0) :
    nerd_register_channel_callbacks reg (l1 ++ b :: l2) = (l1 ++ [b], -1) := by
  induction l1 with
  | nil => simp [nerd_register_channel_callbacks, hb]
  | cons cb rest ih =>
    have h1 : reg cb = 0 := hok cb (List.mem_cons_self cb rest)
    have h2 := ih (fun c hc => hok c (List.mem_cons_of_mem cb hc))
    simp [nerd_register_channel_callbacks, h1, h2]

/-- Witness for the amended C6: callbacks 3, 5, 7 with registration of 5
failing - 3 and 5 are attempted, 7 is not, and the result is -1. -/
theorem nerd_register_stops_at_first_failure_witness :
    nerd_register_channel_callbacks (fun cb => if cb = 5 then -1 else 0) [3, 5, 7] =
      ([3, 5], -1) :=
  nerd_register_stops_at_first_failure (fun cb => if cb = 5 then -1 else 0) [3] 5 [7]
    (by decide) (by decide)

/-- C7 counterexample: unsubscribe on a channel whose subscriber list is
already empty still issues a deregistration call for the channel's declared
callback, refuting the claim that no further deregistration calls are issued
in that case. -/
theorem nerd_unsubscribe_empty_deregisters_cex :
    (unsubscribe 9 0 ⟨[⟨"hostchecks", "Host check results", [8], []⟩], []⟩).evs =
      [NerdEvent.deregisterCb 0 8] ∧
    (unsubscribe 9 0 ⟨[⟨"hostchecks", "Host check results", [8], []⟩], []⟩).evs ≠
      [] := by
  decide

/-- C7 (amended): unsubscribe issues the channel's deregistration calls
whenever the subscriber list is empty after the removal pass - including
when it was already empty, in which case the one-call-per-declared-callback
deregistration is issued again (the broker's deregistration of an
unregistered callback being a no-op, the callbacks simply stay
unregistered); the return value is 0. -/
theorem nerd_unsubscribe_empty_rederegisters (sd : Sd) (ci : Nat) (st : NerdState)
    (chan : NerdChannel) (hch : st.channels[ci]? = some chan)
    (hempty : chan.subscriptions = []) :
    (unsubscribe sd ci st).evs = chan.callbacks.map (NerdEvent.deregisterCb ci) ∧
    (unsubscribe sd ci st).ret = 0 := by
  constructor
  · rw [show (unsubscribe sd ci st).evs = (chanRemoveStep sd ci st).2 from rfl,
      chanRemoveStep_evs sd ci st chan hch, hempty]
    rw [show remove_matching sd [] = [] from rfl, if_pos rfl]
    rfl
  · rfl

/-- Witness for the amended C7: unsubscribing 9 from an empty hostchecks
channel re-issues the deregistration of callback 8. -/
theorem nerd_unsubscribe_empty_rederegisters_witness :
    (unsubscribe 9 0 ⟨[⟨"hostchecks", "Host check results", [8], []⟩], []⟩).evs =
      ([8] : List Nat).map (NerdEvent.deregisterCb 0) ∧
    (unsubscribe 9 0 ⟨[⟨"hostchecks", "Host check results", [8], []⟩], []⟩).ret = 0 :=
  nerd_unsubscribe_empty_rederegisters 9 0
    ⟨[⟨"hostchecks", "Host check results", [8], []⟩], []⟩
    ⟨"hostchecks", "Host check results", [8], []⟩ (by decide) rfl

/-- C8 counterexample: cancelling connection 7, which holds two
subscriptions, returns 0 - not the removal count 2 - and issues the
iobroker close for the transport itself, refuting the claim that the count
is returned and that the transport close is left to an external
collaborator. -/
theorem nerd_cancel_subscriber_count_close_cex :
    (nerd_cancel_subscriber 7 ⟨[⟨"hostchecks", "Host check results", [8],
        [⟨7, none⟩, ⟨7, none⟩]⟩], [(0, 8)]⟩).ret = 0 ∧
    count_matching 7 [(⟨7, none⟩ : NerdSubscription), ⟨7, none⟩] = 2 ∧
    (nerd_cancel_subscriber 7 ⟨[⟨"hostchecks", "Host check results", [8],
        [⟨7, none⟩, ⟨7, none⟩]⟩], [(0, 8)]⟩).ret ≠ 2 ∧
    NerdEvent.closeSd 7 ∈ (nerd_cancel_subscriber 7 ⟨[⟨"hostchecks",
        "Host check results", [8], [⟨7, none⟩, ⟨7, none⟩]⟩], [(0, 8)]⟩).evs := by
  decide

/-- C8 (amended): nerd_cancel_subscriber removes every matching subscription
from every channel, preserving the other subscriptions in order, requests
the reactor close the connection's transport (iobroker_close), and returns 0
- the per-channel removal counts are only logged, not returned. -/
theorem nerd_cancel_subscriber_behavior (sd : Sd) (st : NerdState) :
    (nerd_cancel_subscriber sd st).ret = 0 ∧
    NerdEvent.closeSd sd ∈ (nerd_cancel_subscriber sd st).evs ∧
    ∀ (ci : Nat) (chan : NerdChannel), st.channels[ci]? = some chan →
      (nerd_cancel_subscriber sd st).st.channels[ci]? =
        some { chan with subscriptions :=
          chan.subscriptions.filter (fun s => decide (s.sd ≠ sd)) } := by
  refine ⟨rfl, closeSd_mem_cancel_evs sd st, ?_⟩
  intro ci chan hch
  rw [cancel_subscriber_channels sd st ci chan hch, remove_matching_eq_filter]

/-- C9: for any control request other than the empty string, help and list:
if the line has no space, or the verb before the first space is not exactly
subscribe or unsubscribe, or the named channel (the text after the verb,
stripped at the first colon) is not in the registry, the handler returns 400
and leaves the registry unchanged - no subscription is created or removed;
otherwise it dispatches to subscribe or unsubscribe with the calling
connection's handle and returns 0. -/
theorem nerd_qh_dispatch_behavior (reg : Nat → Int) (sd : Sd) (r : String)
    (len : Nat) (st : NerdState) (h1 : r ≠ "") (h2 : r ≠ "help") (h3 : r ≠ "list") :
    (splitFirst ' ' r = none → nerd_qh_handler reg sd r len st = ⟨st, 400, ""⟩) ∧
    (∀ verb rest : String, splitFirst ' ' r = some (verb, rest) →
      verb ≠ "subscribe" → verb ≠ "unsubscribe" →
      nerd_qh_handler reg sd r len st = ⟨st, 400, ""⟩) ∧
    (∀ verb rest : String, splitFirst ' ' r = some (verb, rest) →
      find_channel (chanNameOf rest) st = none →
      nerd_qh_handler reg sd r len st = ⟨st, 400, ""⟩) ∧
    (∀ (rest : String) (ci : Nat), splitFirst ' ' r = some ("subscribe", rest) →
      find_channel (chanNameOf rest) st = some ci →
      nerd_qh_handler reg sd r len st =
        ⟨(subscribe reg sd (fmtOf rest) ci st).st, 0, ""⟩) ∧
    (∀ (rest : String) (ci : Nat), splitFirst ' ' r = some ("unsubscribe", rest) →
      find_channel (chanNameOf rest) st = some ci →
      nerd_qh_handler reg sd r len st = ⟨(unsubscribe sd ci st).st, 0, ""⟩) := by
  have hne : ¬(r = "" ∨ r = "help") := by
    rintro (h | h)
    · exact h1 h
    · exact h2 h
  refine ⟨?_, ?_, ?_, ?_, ?_⟩
  · intro hsp
    simp [nerd_qh_handler, hne, h3, hsp]
  · intro verb rest hsp hv1 hv2
    simp [nerd_qh_handler, hne, h3, hsp, hv1, hv2]
  · intro verb rest hsp hfind
    by_cases hv1 : verb = "subscribe"
    · subst hv1
      simp [nerd_qh_handler, hne, h3, hsp, hfind]
    · by_cases hv2 : verb = "unsubscribe"
      · subst hv2
        simp [nerd_qh_handler, hne, h3, hsp, hfind]
      · simp [nerd_qh_handler, hne, h3, hsp, hv1, hv2]
  · intro rest ci hsp hfind
    simp [nerd_qh_handler, hne, h3, hsp, hfind]
  · intro rest ci hsp hfind
    simp [nerd_qh_handler, hne, h3, hsp, hfind]

/-- Witness for C9: the request "subscribe hostchecks" on the initial
registry dispatches to subscribe for channel 0 with the caller's handle and
returns 0. -/
theorem nerd_qh_dispatch_behavior_witness :
    nerd_qh_handler (fun _ => 0) 5 "subscribe hostchecks" 20 nerd_init_state =
      ⟨(subscribe (fun _ => 0) 5 (fmtOf "hostchecks") 0 nerd_init_state).st, 0, ""⟩ :=
  (nerd_qh_dispatch_behavior (fun _ => 0) 5 "subscribe hostchecks" 20 nerd_init_state
    (by decide) (by decide) (by decide)).2.2.2.1 "hostchecks" 0 (by decide) (by decide)

/-- Rendering asserted by the C10 claim: the channel name left-padded
(right-justified) to width 15, one space, the description, a newline. -/
def lineLeftPad (p : String × String) : String :=
  String.mk (List.replicate (15 - p.1.length) ' ') ++ p.1 ++ " " ++ p.2 ++ "\n"

/-- Full list output under the left-padded rendering of the C10 claim. -/
def listOutputLeftPad (st : NerdState) : String :=
  String.join (st.channels.map (fun chan => lineLeftPad (chan.name, chan.description))) ++
    String.mk [nulChar]

/-- C10 counterexample: on the registry nerd_init builds, the list response
pads the channel names on the right (printf %-15s is left-justification),
so the output differs from the left-padded rendering the claim describes. -/
theorem nerd_list_not_leftpad_cex :
    (nerd_qh_handler (fun _ => 0) 5 "list" 4 nerd_init_state).out =
      listOutput nerd_init_state ∧
    (nerd_qh_handler (fun _ => 0) 5 "list" 4 nerd_init_state).out ≠
      listOutputLeftPad nerd_init_state ∧
    (nerd_qh_handler (fun _ => 0) 5 "list" 4 nerd_init_state).ret = 0 := by
  decide

theorem nerd_qh_list (reg : Nat → Int) (sd : Sd) (len : Nat) (st : NerdState) :
    nerd_qh_handler reg sd "list" len st = ⟨st, 0, listOutput st⟩ := rfl

theorem map_fmtChanLine_eq (l : List NerdChannel) :
    l.map fmtChanLine =
      (l.map (fun c => (c.name, c.description))).map lineOfNameDesc := by
  rw [List.map_map]
  exact List.map_congr_left (fun c _ => rfl)

/-- C10 (amended): the list request writes one line per registered channel -
the name left-justified (padded on the right with spaces) to a minimum field
width of 15, one space, the description, a newline - followed by exactly one
zero byte; it returns 0, leaves the state unchanged, and its output depends
only on the channels' names and descriptions, not on their subscriber
lists. -/
theorem nerd_list_output_format (reg reg2 : Nat → Int) (sd sd2 : Sd) (len len2 : Nat)
    (st st2 : NerdState)
    (h : st.channels.map (fun c => (c.name, c.description)) =
      st2.channels.map (fun c => (c.name, c.description))) :
    nerd_qh_handler reg sd "list" len st =
      ⟨st, 0, String.join (st.channels.map fmtChanLine) ++ String.mk [nulChar]⟩ ∧
    (nerd_qh_handler reg sd "list" len st).out =
      (nerd_qh_handler reg2 sd2 "list" len2 st2).out := by
  constructor
  · exact nerd_qh_list reg sd len st
  · rw [nerd_qh_list reg sd len st, nerd_qh_list reg2 sd2 len2 st2]
    show listOutput st = listOutput st2
    unfold listOutput
    rw [map_fmtChanLine_eq, map_fmtChanLine_eq, h]

/-- Witness for the amended C10: two registries with the same channel names
and descriptions but different subscriber lists produce the same list
output, with status 0 and the state left unchanged. -/
theorem nerd_list_output_format_witness :
    nerd_qh_handler (fun _ => 0) 5 "list" 4
        ⟨[⟨"hostchecks", "Host check results", [8], [⟨5, none⟩]⟩], [(0, 8)]⟩ =
      ⟨⟨[⟨"hostchecks", "Host check results", [8], [⟨5, none⟩]⟩], [(0, 8)]⟩, 0,
        String.join (([⟨"hostchecks", "Host check results", [8],
            [⟨5, none⟩]⟩] : List NerdChannel).map fmtChanLine) ++
          String.mk [nulChar]⟩ ∧
    (nerd_qh_handler (fun _ => 0) 5 "list" 4
        ⟨[⟨"hostchecks", "Host check results", [8], [⟨5, none⟩]⟩], [(0, 8)]⟩).out =
      (nerd_qh_handler (fun _ => 0) 6 "list" 9
        ⟨[⟨"hostchecks", "Host check results", [8], []⟩], []⟩).out :=
  nerd_list_output_format (fun _ => 0) (fun _ => 0) 5 6 4 9
    ⟨[⟨"hostchecks", "Host check results", [8], [⟨5, none⟩]⟩], [(0, 8)]⟩
    ⟨[⟨"hostchecks", "Host check results", [8], []⟩], []⟩ (by decide)
